import Mathlib

/-!
Shallow embedding of the `sqlite-virtual-url` crate: the type-inference
lattice (`src/dtypes/inference.rs`), the typed value model
(`src/dtypes/schema.rs`), the CSV and Avro readers (`src/io/csv_reader.rs`,
`src/io/avro_reader.rs`), the predicate-pushdown translator and the two
virtual-table cursors (`src/lib.rs`, `src/vector_impl.rs`), and the
metadata-reconstruction path of the materialization gate (`src/lib.rs`,
`src/storage.rs`).

External crates (csv, avro-rs, polars, sqlite) are modelled only at the
boundary where the repository's own code consumes them: a CSV stream is a
header plus a list of string records, an Avro payload is a framing result
holding per-record decode results, a polars frame is a list of typed
columns, and an sqlite3_value is a tagged literal.
-/

namespace UrlVtab

/-! ## Models of Rust standard-library string primitives -/

/-- ASCII lower-casing of one character, as done by
`u8::to_ascii_lowercase` / `eq_ignore_ascii_case`. -/
def toLowerAscii (c : Char) : Char :=
  if 'A' ≤ c ∧ c ≤ 'Z' then Char.ofNat (c.toNat + 32) else c

/-- Model of Rust `str::eq_ignore_ascii_case`. -/
def eqIgnoreAsciiCase (a b : String) : Bool :=
  a.data.map toLowerAscii == b.data.map toLowerAscii

/-- Model of Rust `str::trim` (strip leading and trailing whitespace),
written over the character list so that it evaluates in the kernel. -/
def rustTrim (s : String) : String :=
  ⟨((s.data.dropWhile Char.isWhitespace).reverse.dropWhile Char.isWhitespace).reverse⟩

/-- Leading sign of a Rust numeric literal: returns (is-negative, rest).
`+` and `-` are both consumed, as in `i64::from_str` / `f64::from_str`. -/
def parseSign : List Char → Bool × List Char
  | '+' :: rest => (false, rest)
  | '-' :: rest => (true, rest)
  | cs => (false, cs)

/-- Longest prefix of ASCII digits, with the remainder. -/
def spanDigits : List Char → List Char × List Char
  | [] => ([], [])
  | c :: cs =>
    if c.isDigit then
      let (ds, rest) := spanDigits cs
      (c :: ds, rest)
    else
      ([], c :: cs)

/-- Numeric value of a digit string. -/
def digitsVal (ds : List Char) : Nat :=
  ds.foldl (fun acc c => acc * 10 + (c.toNat - '0'.toNat)) 0

/-- Model of Rust `"...".parse::<i64>()`: optional sign, one or more ASCII
digits, and the value must fit in a 64-bit signed integer. -/
def parseI64 (s : String) : Option Int :=
  let (neg, ds) := parseSign s.data
  if ds.isEmpty ∨ ¬ ds.all Char.isDigit then none
  else
    let v : Int := if neg then -(digitsVal ds : Int) else (digitsVal ds : Int)
    if -(2 ^ 63) ≤ v ∧ v ≤ 2 ^ 63 - 1 then some v else none

/-- A 64-bit float as seen by this crate: an exact fraction `num / den`
for finite values, with `den` a positive power of ten by construction
(rounding to the nearest double is not modelled; every claim that
inspects a float value does so at small literals that are exactly
representable), plus infinities and NaN. -/
inductive F64 where
  | finite (num : Int) (den : Nat)
  | inf (neg : Bool)
  | nan
deriving DecidableEq, Repr

/-- Semantic equality of two parsed doubles (`==` on `f64`): NaN equals
nothing, fractions compare by cross-multiplication. -/
def F64.eqv : F64 → F64 → Bool
  | .nan, _ => false
  | _, .nan => false
  | .finite n1 d1, .finite n2 d2 => n1 * d2 == n2 * d1
  | .inf a, .inf b => a == b
  | _, _ => false

/-- Semantic strict order on parsed doubles (`<` on `f64`): false on NaN,
fractions compare by cross-multiplication. -/
def F64.ltv : F64 → F64 → Bool
  | .nan, _ => false
  | _, .nan => false
  | .finite n1 d1, .finite n2 d2 => decide (n1 * d2 < n2 * d1)
  | .finite _ _, .inf neg => !neg
  | .inf neg, .finite _ _ => neg
  | .inf a, .inf b => a && !b

/-- Non-strict order on parsed doubles (`<=` on `f64`). -/
def F64.lev (a b : F64) : Bool :=
  F64.ltv a b || F64.eqv a b

/-- Model of Rust `"...".parse::<f64>()` (the grammar of
`core::num::dec2flt`): optional sign; `inf`/`infinity`/`nan`
case-insensitively; otherwise digits with an optional point (at least one
digit overall) and an optional `e`/`E` exponent with mandatory digits. -/
def parseF64 (s : String) : Option F64 :=
  let (neg, cs) := parseSign s.data
  let lower := cs.map toLowerAscii
  if lower = "inf".data ∨ lower = "infinity".data then some (.inf neg)
  else if lower = "nan".data then some .nan
  else
    let (ip, r1) := spanDigits cs
    let (fp, r2) :=
      match r1 with
      | '.' :: r => spanDigits r
      | _ => ([], r1)
    if ip.isEmpty ∧ fp.isEmpty then none
    else
      let num : Int := digitsVal ip * 10 ^ fp.length + digitsVal fp
      let den : Nat := 10 ^ fp.length
      let snum : Int := if neg then -num else num
      match r2 with
      | [] => some (.finite snum den)
      | 'e' :: r =>
        let (eneg, r1) := parseSign r
        let (eds, r2) := spanDigits r1
        if eds.isEmpty ∨ ¬ r2.isEmpty then none
        else if eneg then some (.finite snum (den * 10 ^ digitsVal eds))
        else some (.finite (snum * 10 ^ digitsVal eds) den)
      | 'E' :: r =>
        let (eneg, r1) := parseSign r
        let (eds, r2) := spanDigits r1
        if eds.isEmpty ∨ ¬ r2.isEmpty then none
        else if eneg then some (.finite snum (den * 10 ^ digitsVal eds))
        else some (.finite (snum * 10 ^ digitsVal eds) den)
      | _ => none

/-- Decidable equality for `Except`, used to evaluate reader results on
concrete inputs. -/
instance {e : Type} {a : Type} [DecidableEq e] [DecidableEq a] : DecidableEq (Except e a) :=
  fun x y =>
    match x, y with
    | .ok u, .ok v =>
      if h : u = v then isTrue (by rw [h]) else isFalse (fun hc => by cases hc; exact h rfl)
    | .error u, .error v =>
      if h : u = v then isTrue (by rw [h]) else isFalse (fun hc => by cases hc; exact h rfl)
    | .ok _, .error _ => isFalse (fun hc => by cases hc)
    | .error _, .ok _ => isFalse (fun hc => by cases hc)

/-- Model of Rust `"...".parse::<bool>()`: exactly `"true"` or `"false"`,
case-sensitively. -/
def parseRustBool (s : String) : Option Bool :=
  if s = "true" then some true
  else if s = "false" then some false
  else none

/-- Alias for the builtin string type, usable inside namespaces whose
constructors shadow the name `String`. -/
abbrev Str := String

/-- Alias for the builtin integer type, usable inside namespaces whose
constructors shadow the name `Int`. -/
abbrev Z := Int

/-! ## `src/dtypes/inference.rs` -/

/-- The inference-time lattice `InferredType`. -/
inductive InferredType where
  | Null
  | Bool
  | Int
  | Float
  | String
deriving DecidableEq, Repr

namespace InferredType

/-- Source function `InferredType::promote`, with the source's match arms
in order: `String` wins, then `Float`, then `Int`, then `Bool`, and a
`Null` accumulator takes the new classification. -/
def promote (current new : InferredType) : InferredType :=
  match current, new with
  | .String, _ => .String
  | _, .String => .String
  | .Float, _ => .Float
  | _, .Float => .Float
  | .Int, _ => .Int
  | _, .Int => .Int
  | .Bool, _ => .Bool
  | _, .Bool => .Bool
  | .Null, other => other

/-- Source function `InferredType::update`: trim; an empty sample leaves the accumulator
unchanged; otherwise classify as Bool (case-insensitive `true`/`false`),
else i64, else f64, else String, and promote. -/
def update (t : InferredType) (value : Str) : InferredType :=
  let val := rustTrim value
  if val.data.isEmpty then t
  else
    let newType :=
      if eqIgnoreAsciiCase val "true" || eqIgnoreAsciiCase val "false" then InferredType.Bool
      else if (parseI64 val).isSome then InferredType.Int
      else if (parseF64 val).isSome then InferredType.Float
      else InferredType.String
    promote t newType

end InferredType

/-- Height of an inferred type in the promotion order the specification
names (`Text` above `Float` above `Integer` above `Boolean` above
`Null`). -/
def InferredType.rank : InferredType → Nat
  | .Null => 0
  | .Bool => 1
  | .Int => 2
  | .Float => 3
  | .String => 4

/-- Least upper bound in the total promotion order, written from the
specification text. -/
def spec_lub (a b : InferredType) : InferredType :=
  if b.rank ≤ a.rank then a else b

/-- Classification of one non-empty trimmed sample, written from the
specification text: case-insensitive Boolean first, else a 64-bit signed
integer, else a 64-bit float, else Text. -/
def spec_classify (s : Str) : InferredType :=
  if eqIgnoreAsciiCase s "true" || eqIgnoreAsciiCase s "false" then .Bool
  else if (parseI64 s).isSome then .Int
  else if (parseF64 s).isSome then .Float
  else .String

/-! ## `src/dtypes/schema.rs` -/

/-- The five SQLite affinities plus `Null`, as in `schema.rs`. -/
inductive DataType where
  | Null
  | Text
  | Int
  | Real
  | Numeric
  | Blob
deriving DecidableEq, Repr

/-- Source function `InferredType::to_data_type`. The source text names
`DataType::Boolean`, `DataType::Float` and `DataType::String`, variants
that `schema.rs` does not declare (its affinity set is
Null/Text/Int/Real/Numeric/Blob); the corresponding affinities used by the
rest of the crate are Numeric (BOOL), Real and Text, and the model maps to
those. No claim depends on this mapping. -/
def InferredType.to_data_type : InferredType → DataType
  | .Null => .Null
  | .Bool => .Numeric
  | .Int => .Int
  | .Float => .Real
  | .String => .Text

/-- Literal values, from `schema.rs` (`ValueLiteral`). -/
inductive ValueLiteral where
  | Null
  | Boolean (b : Bool)
  | Int (i : Int)
  | Float (f : F64)
  | Text (s : String)
  | Blob (bytes : List (Fin 256))
deriving DecidableEq, Repr

/-- Typed value pair, from `schema.rs` (`TypedValue`). -/
structure TypedValue where
  dtype : DataType
  value : ValueLiteral
deriving DecidableEq, Repr

/-- Schema field descriptor, from `schema.rs` (`SchemaField`). -/
structure SchemaField where
  name : String
  dtype : DataType
  nullable : Bool
deriving DecidableEq, Repr

/-- Ordered schema, from `schema.rs` (`Schema`). -/
structure Schema where
  fields : List SchemaField
deriving DecidableEq, Repr


/-! ## `src/io/csv_reader.rs` -/

/-- Source function `parse_str_value`: the row-time eager parse of one CSV
field. The empty string (not trimmed) is Null; otherwise try i64, then
f64, then `bool` (case-sensitive), else Text. -/
def parse_str_value (s : String) : TypedValue :=
  if s.isEmpty then
    { dtype := .Null, value := .Null }
  else
    match parseI64 s with
    | some v => { dtype := .Int, value := .Int v }
    | none =>
      match parseF64 s with
      | some v => { dtype := .Real, value := .Float v }
      | none =>
        match parseRustBool s with
        | some v => { dtype := .Numeric, value := .Boolean v }
        | none => { dtype := .Text, value := .Text s }

/-- Boundary model of the csv crate's view of the payload bytes: the
parsed header record and the parsed data records, in file order. Record
level csv parse errors abort construction in the source and are not
modelled. -/
structure CsvData where
  header : List String
  records : List (List String)
deriving DecidableEq, Repr

/-- The embedded `CsvReader` struct (`data` is kept as its parsed form). -/
structure CsvReader where
  data : CsvData
  schema : Schema
  bytes_read : Nat
  total_rows : Nat
deriving Repr

/-- Accumulator of the schema-discovery loop in `CsvReader::try_new`. -/
structure InferAcc where
  types : List InferredType
  nulls : List Bool
  total_rows : Nat
  bytes_read : Nat
deriving Repr

/-- Per-record accumulator update of `CsvReader::try_new`: walk the fields
positionally; an all-whitespace field sets the null flag, any other field
feeds the column's inference accumulator. A record longer than the header
would panic in the source (`inferred_types[j]`) and is modelled by
ignoring the extra fields; a shorter record leaves the remaining columns
untouched, as in the source. -/
def updateCols : List InferredType → List Bool → List String → List InferredType × List Bool
  | [], _, _ => ([], [])
  | t :: ts, [], _ => (t :: ts, [])
  | t :: ts, n :: ns, [] => (t :: ts, n :: ns)
  | t :: ts, n :: ns, f :: fs =>
    let (ts2, ns2) := updateCols ts ns fs
    if (rustTrim f).data.isEmpty then (t :: ts2, true :: ns2)
    else (t.update f :: ts2, n :: ns2)

/-- The `for (i, result) in reader.records().enumerate()` loop of
`CsvReader::try_new`: every visited record bumps `total_rows` and adds
`record.as_byte_record().len()` — the csv crate's field count of the
record, not a byte count — to `bytes_read`, then the loop breaks when
`i + 1 >= max_infer_rows`. -/
def inferLoop (acc : InferAcc) (i : Nat) (max_infer_rows : Nat) :
    List (List String) → InferAcc
  | [] => acc
  | r :: rs =>
    let tn := updateCols acc.types acc.nulls r
    let acc2 : InferAcc :=
      { types := tn.1
        nulls := tn.2
        total_rows := acc.total_rows + 1
        bytes_read := acc.bytes_read + r.length }
    if i + 1 ≥ max_infer_rows then acc2
    else inferLoop acc2 (i + 1) max_infer_rows rs

/-- Source function `CsvReader::try_new`: read the header, run the
sampled schema-discovery loop, and build the schema from the final
accumulators. -/
def CsvReader.try_new (data : CsvData) (max_infer_rows : Nat) : CsvReader :=
  let column_count := data.header.length
  let acc := inferLoop
    { types := List.replicate column_count .Null
      nulls := List.replicate column_count false
      total_rows := 0
      bytes_read := 0 }
    0 max_infer_rows data.records
  let fields := (List.range column_count).map fun i =>
    { name := data.header.getD i ""
      dtype := (acc.types.getD i .Null).to_data_type
      nullable := acc.nulls.getD i false : SchemaField }
  { data := data
    schema := ⟨fields⟩
    bytes_read := acc.bytes_read
    total_rows := acc.total_rows }

/-- Source `CsvRowIterator` / `CsvReader::iter_rows`: a fresh cursor over
the same bytes (the default csv reader again skips the header row), each
record converted field-by-field with `parse_str_value`. -/
def CsvReader.iter_rows (r : CsvReader) : List (List TypedValue) :=
  r.data.records.map (fun rec => rec.map parse_str_value)

/-- Sum of the field string lengths of the first `k` records; this is the
byte-accounting metric the claim describes (it is not what the code
computes). -/
def specSampledFieldLenSum (records : List (List String)) (k : Nat) : Nat :=
  ((records.take k).map (fun r => (r.map String.length).sum)).sum

/-! ## `src/io/mod.rs` and `src/io/avro_reader.rs` -/

/-- Reader error kinds from `src/io/mod.rs` (the payloads of the Io/Csv/
Avro variants are external error values, kept as their messages). -/
inductive ReaderError where
  | Io (msg : Str)
  | Csv (msg : Str)
  | Avro (msg : Str)
  | InvalidFormat (msg : Str)
deriving DecidableEq, Repr

/-- Model of `avro_rs::types::Value`: every variant matched by
`convert_avro_value`. A `Decimal` is kept as its byte representation (the
external crate's fallible `try_into` conversion is modelled as always
succeeding; its error is also an `InvalidFormat`, so no claim depends on
it), a `Duration` as its 12-byte form, and a `Uuid` as its rendered
string. -/
inductive AvroValue where
  | Null
  | Boolean (b : Bool)
  | Int (i : Z)
  | Long (i : Z)
  | TimeMillis (i : Z)
  | TimeMicros (i : Z)
  | Date (i : Z)
  | TimestampMillis (i : Z)
  | TimestampMicros (i : Z)
  | Duration (bytes : List (Fin 256))
  | Float (f : F64)
  | Double (f : F64)
  | Decimal (bytes : List (Fin 256))
  | Bytes (b : List (Fin 256))
  | Fixed (n : Nat) (b : List (Fin 256))
  | String (s : Str)
  | Enum (idx : Nat) (s : Str)
  | Uuid (s : Str)
  | Union (inner : AvroValue)
  | Array (items : List AvroValue)
  | Map (entries : List (Str × AvroValue))
  | Record (fields : List (Str × AvroValue))

/-- Modelled from the spec: `dtype_from_avro` is referenced by
`src/io/avro_reader.rs` but its definition is not among the provided
source files. Per spec section 4.3 a field DataType is fixed by the value
variant: numeric and temporal variants map to Integer, floating variants
to Real, string/symbolic/identifier variants to Text, byte/fixed/decimal
variants to Blob, null to Null, boolean to the BOOL affinity (Numeric),
and a union is inspected through its inner value. Aggregate variants never
survive row conversion; they are mapped to Text here and no claim depends
on that choice. -/
def dtype_from_avro : AvroValue → DataType
  | .Null => .Null
  | .Boolean _ => .Numeric
  | .Int _ => .Int
  | .Long _ => .Int
  | .TimeMillis _ => .Int
  | .TimeMicros _ => .Int
  | .Date _ => .Int
  | .TimestampMillis _ => .Int
  | .TimestampMicros _ => .Int
  | .Duration _ => .Blob
  | .Float _ => .Real
  | .Double _ => .Real
  | .Decimal _ => .Blob
  | .Bytes _ => .Blob
  | .Fixed _ _ => .Blob
  | .String _ => .Text
  | .Enum _ _ => .Text
  | .Uuid _ => .Text
  | .Union inner => dtype_from_avro inner
  | .Array _ => .Text
  | .Map _ => .Text
  | .Record _ => .Text

/-- Source function `convert_avro_value`: map each Avro variant to a
`ValueLiteral`; a union unwraps recursively; arrays, maps and nested
records are rejected with the "complex type" `InvalidFormat` error. -/
def convert_avro_value : AvroValue → Except ReaderError ValueLiteral
  | .Null => .ok .Null
  | .Boolean b => .ok (.Boolean b)
  | .Int i => .ok (.Int i)
  | .Long i => .ok (.Int i)
  | .TimeMillis i => .ok (.Int i)
  | .TimeMicros i => .ok (.Int i)
  | .Date i => .ok (.Int i)
  | .TimestampMillis i => .ok (.Int i)
  | .TimestampMicros i => .ok (.Int i)
  | .Duration bytes => .ok (.Blob bytes)
  | .Float f => .ok (.Float f)
  | .Double f => .ok (.Float f)
  | .Decimal bytes => .ok (.Blob bytes)
  | .Bytes b => .ok (.Blob b)
  | .Fixed _ b => .ok (.Blob b)
  | .String s => .ok (.Text s)
  | .Enum _ s => .ok (.Text s)
  | .Uuid s => .ok (.Text s)
  | .Union inner => convert_avro_value inner
  | .Array _ => .error (.InvalidFormat "Complex types not supported")
  | .Map _ => .error (.InvalidFormat "Complex types not supported")
  | .Record _ => .error (.InvalidFormat "Complex types not supported")

/-- Discriminator for the aggregate variants rejected by
`convert_avro_value`. -/
def AvroValue.isComplex : AvroValue → Bool
  | .Array _ => true
  | .Map _ => true
  | .Record _ => true
  | _ => false

/-- Number of union wrappers around a value; the only recursion in
`convert_avro_value` peels these, so it is an induction measure. -/
def AvroValue.unionDepth : AvroValue → Nat
  | .Union inner => inner.unionDepth + 1
  | _ => 0

/-- Field-by-field conversion of one record's fields with the semantics
of Rust `collect::<Result<Vec<_>, _>>`: the first failing field fails the
whole row. -/
def collectRow : List (Str × AvroValue) → Except ReaderError (List TypedValue)
  | [] => .ok []
  | p :: rest =>
    match convert_avro_value p.2 with
    | .error e => .error e
    | .ok literal =>
      match collectRow rest with
      | .error e => .error e
      | .ok tail => .ok ({ dtype := dtype_from_avro p.2, value := literal } :: tail)

/-- Body of `AvroRowIterator::next` for one pre-decoded record: convert
the fields left to right, stopping at the first failing field; a
non-record value fails outright. -/
def avroRowStep (value : AvroValue) : Except ReaderError (List TypedValue) :=
  match value with
  | .Record fields => collectRow fields
  | _ => .error (.InvalidFormat "Expected record")

/-- Compile-time size of the external `avro_rs::types::Value` enum; the
source adds `std::mem::size_of_val(&val)` (a constant per value) to its
byte counter. The exact constant is irrelevant to every claim. -/
def avroValueMemSize : Nat := 64

/-- Embedded `AvroReader` struct (the raw byte slice is not modelled; the
pre-decoded records stand for it). -/
structure AvroReader where
  schema : Schema
  bytes_read : Nat
  total_rows : Nat
  records : List AvroValue

/-- Decode loop of `AvroReader::try_new`: each record-level decode result
is forwarded with `?`, so the first failing record aborts construction. -/
def collectAvro : List (Except Str AvroValue) → Except Str (List AvroValue)
  | [] => .ok []
  | .error e :: _ => .error e
  | .ok v :: rest => (collectAvro rest).map (v :: ·)

/-- Rust `matches!(value, Value::Null)` used for the nullable flag. -/
def AvroValue.isNullVariant : AvroValue → Bool
  | .Null => true
  | _ => false

/-- Source function `AvroReader::try_new`: the framing result and the
per-record decode results of the external avro crate are the input. Any
framing or decode error becomes `InvalidFormat`; the schema is read off
the first decoded record, one field per entry in record order; anything
else (no records, or a non-record first value) is the "Empty or invalid
AVRO file" error. The sample budget argument is ignored. -/
def AvroReader.try_new (framing : Except Str (List (Except Str AvroValue)))
    (_max_infer_rows : Nat) : Except ReaderError AvroReader :=
  match framing with
  | .error e => .error (.InvalidFormat e)
  | .ok items =>
    match collectAvro items with
    | .error e => .error (.InvalidFormat e)
    | .ok records =>
      match records.head? with
      | some (.Record fields) =>
        .ok { schema := ⟨fields.map fun p =>
                { name := p.1
                  dtype := dtype_from_avro p.2
                  nullable := p.2.isNullVariant }⟩
              bytes_read := records.length * avroValueMemSize
              total_rows := records.length
              records := records }
      | _ => .error (.InvalidFormat "Empty or invalid AVRO file")

/-- Error projection of a reader result (the nested `AvroValue` type has
no decidable equality, so concrete facts about `try_new` are stated
through projections like this one). -/
def readerErr {a : Type} : Except ReaderError a → Option ReaderError
  | .error e => some e
  | .ok _ => none

/-- Schema projection of a reader construction result. -/
def avroSchemaOf (r : Except Str (List (Except Str AvroValue))) : Option Schema :=
  match AvroReader.try_new r 0 with
  | .ok reader => some reader.schema
  | .error _ => none

/-- Source function `AvroReader::iter_rows`: replay the snapshot of
pre-decoded records, converting each independently. -/
def AvroReader.iter_rows (r : AvroReader) : List (Except ReaderError (List TypedValue)) :=
  r.records.map avroRowStep

/-! ## Boundary models: polars frames and sqlite values -/

/-- Polars dtypes named by `storage.rs` / `lib.rs`; `Other` stands for the
remaining dtypes reached only through the catch-all match arms. -/
inductive PlDataType where
  | Boolean
  | UInt8
  | UInt16
  | UInt32
  | UInt64
  | Int8
  | Int16
  | Int32
  | Int64
  | Int128
  | Float32
  | Float64
  | String
  | Null
  | Binary
  | Datetime
  | Date
  | Other
deriving DecidableEq, Repr

/-- Cell values of a polars column (all integer widths collapse to `Int`;
a `date` carries its day payload and stands for the non-primitive cells
compared only through the catch-all text branch). -/
inductive PlValue where
  | Null
  | Boolean (b : Bool)
  | Int (i : Z)
  | Float (f : F64)
  | Str (s : Str)
  | Date (days : Z)
deriving DecidableEq, Repr

/-- One polars column: name, dtype and cells. -/
structure PlColumn where
  name : Str
  dtype : PlDataType
  values : List PlValue
deriving DecidableEq, Repr

/-- A materialized polars frame. -/
structure DataFrame where
  columns : List PlColumn
deriving DecidableEq, Repr

/-- Frame height (polars keeps all columns the same length). -/
def DataFrame.height (df : DataFrame) : Nat :=
  match df.columns with
  | [] => 0
  | c :: _ => c.values.length

/-- Column dtypes in order, as `DataFrame::dtypes`. -/
def DataFrame.dtypes (df : DataFrame) : List PlDataType :=
  df.columns.map (·.dtype)

/-- An sqlite3_value as handed to `filter` by the host. -/
inductive SqliteValue where
  | integer (i : Z)
  | double (f : F64)
  | text (s : Str)
  | null
deriving DecidableEq, Repr

/-- Boundary model of `api::value_int64` (SQLite's INTEGER coercion). The
claims exercise it only on integer-typed values; text and real coercions
are approximated. -/
def SqliteValue.value_int64 : SqliteValue → Z
  | .integer i => i
  | .double (.finite n d) => n / (d : Z)
  | .double _ => 0
  | .text s => (parseI64 (rustTrim s)).getD 0
  | .null => 0

/-- Boundary model of `api::value_double`. -/
def SqliteValue.value_double : SqliteValue → F64
  | .integer i => .finite i 1
  | .double f => f
  | .text s => (parseF64 (rustTrim s)).getD (.finite 0 1)
  | .null => .finite 0 1

/-- Boundary model of `api::value_text` (always valid UTF-8 here). The
claims exercise it only on text-typed values; the numeric renderings are
approximated with `repr`. -/
def SqliteValue.value_text : SqliteValue → Str
  | .integer i => Int.repr i
  | .double (.finite n d) => Int.repr n ++ "/" ++ Nat.repr d
  | .double (.inf neg) => if neg then "-Inf" else "Inf"
  | .double .nan => "NaN"
  | .text s => s
  | .null => ""

/-! ## `src/storage.rs`: type names -/

/-- SQLite affinity tags from `storage.rs` (`SQLiteDataTypes`). -/
inductive SQLiteDataTypes where
  | BLOB
  | REAL
  | INT
  | NUMERIC
  | TEXT
  | NULL
deriving DecidableEq, Repr

/-- Source function `SQLiteDataTypes::as_str`. -/
def SQLiteDataTypes.as_str : SQLiteDataTypes → Str
  | .BLOB => "BLOB"
  | .REAL => "REAL"
  | .INT => "INTEGER"
  | .TEXT => "TEXT"
  | .NULL => "NULL"
  | .NUMERIC => "NUMERIC"

/-- Source function `df_dtype_to_sqlite_dtype`. -/
def df_dtype_to_sqlite_dtype : PlDataType → SQLiteDataTypes
  | .UInt8 => .INT
  | .UInt16 => .INT
  | .UInt32 => .INT
  | .Int8 => .INT
  | .Int16 => .INT
  | .Int32 => .INT
  | .Int64 => .INT
  | .UInt64 => .INT
  | .Int128 => .INT
  | .Float32 => .REAL
  | .Float64 => .REAL
  | .String => .TEXT
  | .Null => .NULL
  | .Binary => .BLOB
  | .Boolean => .NUMERIC
  | .Datetime => .NUMERIC
  | .Date => .NUMERIC
  | .Other => .TEXT

/-! ## `src/lib.rs`: reconstruction path of the cache gate -/

/-- Source function `UrlTable::trim_quotes`: trim, then strip one pair of
surrounding double quotes if the result has length at least two. -/
def trim_quotes (s : Str) : Str :=
  let t := rustTrim s
  let cs := t.data
  if cs.head? == some (Char.ofNat 34) ∧ cs.getLast? == some (Char.ofNat 34) ∧ cs.length ≥ 2 then
    ⟨(cs.drop 1).dropLast⟩
  else t

/-- Loop body of `UrlTable::split_headers_line`: walk the characters with
a quote-parity flag, splitting on commas that are outside quotes; each
field is trimmed and unquoted; a trailing run is pushed only when
non-empty (the source's `start < line.len()` check). -/
def splitHeadersGo : List Char → List Char → Bool → List Str
  | [], cur, _ =>
    if cur.isEmpty then [] else [trim_quotes (rustTrim ⟨cur⟩)]
  | c :: rest, cur, inQuotes =>
    if c == Char.ofNat 34 then
      splitHeadersGo rest (cur ++ [c]) (!inQuotes)
    else if c == ',' ∧ ¬ inQuotes then
      trim_quotes (rustTrim ⟨cur⟩) :: splitHeadersGo rest [] inQuotes
    else
      splitHeadersGo rest (cur ++ [c]) inQuotes

/-- Source function `UrlTable::split_headers_line`. -/
def split_headers_line (line : Str) : List Str :=
  splitHeadersGo line.data [] false

/-- Source function `UrlTable::dataframe_from_rows`: reject empty input
and ragged rows, then build one string series per column, named from the
header list when long enough, else `column_i`. Every series is built from
`Vec<String>`, so every column dtype is polars `String`. -/
def dataframe_from_rows (data : List (List Str)) (headers : Option (List Str)) :
    Except Str DataFrame :=
  if data.isEmpty then .error "No rows provided"
  else
    let num_cols := (data.headD []).length
    if ¬ data.all (fun row => row.length == num_cols) then
      .error "Inconsistent row lengths"
    else
      .ok ⟨(List.range num_cols).map fun i =>
        { name := ((headers.bind (fun h => h.get? i)).getD ("column_" ++ Nat.repr i))
          dtype := .String
          values := data.map (fun row => .Str (row.getD i "")) }⟩

/-- Column type strings of a frame, as computed in `UrlTable::init`
(`df.dtypes()` mapped through `df_dtype_to_sqlite_dtype(...).as_str()`).
The same expression produces both the declared types of the vtab and the
`COLUMN_TYPES` metadata value persisted at first creation. -/
def df_columns_types (df : DataFrame) : List Str :=
  df.dtypes.map (fun dt => (df_dtype_to_sqlite_dtype dt).as_str)

/-- Reconstruction branch of `UrlTable::init` (no fetch): the stored
`HEADERS` metadata line is split quote-aware, all persisted data rows are
fetched back as strings, and the frame is rebuilt with
`dataframe_from_rows`; the stored `COLUMN_TYPES` metadata is never read.
The declared column types are then recomputed from the rebuilt frame. -/
def reconstruct_table (headerLine : Str) (rows : List (List Str)) :
    Except Str (DataFrame × List Str) :=
  (dataframe_from_rows rows (some (split_headers_line headerLine))).map
    (fun df => (df, df_columns_types df))

/-! ## Small string helpers shared by the translator code -/

/-- Lexicographic order on strings (Rust `&str` ordering; byte order on
UTF-8 agrees with this code-point order). -/
def charListLt : List Char → List Char → Bool
  | [], [] => false
  | [], _ :: _ => true
  | _ :: _, [] => false
  | a :: as, b :: bs => if a < b then true else if b < a then false else charListLt as bs

/-- String version of `charListLt`. -/
def strLt (a b : Str) : Bool := charListLt a.data b.data

/-- Model of Rust `str::split(',')` (an empty input yields one empty
part, a trailing separator yields a trailing empty part). -/
def splitCommaGo : List Char → List Str
  | [] => [""]
  | c :: rest =>
    if c == ',' then "" :: splitCommaGo rest
    else
      match splitCommaGo rest with
      | h :: t => (⟨[c]⟩ ++ h) :: t
      | [] => [⟨[c]⟩]

/-- Split a string on commas. -/
def splitComma (s : Str) : List Str := splitCommaGo s.data

/-- Join strings with a separator (model of `Vec::join`). -/
def joinSep (sep : Str) : List Str → Str
  | [] => ""
  | [x] => x
  | x :: xs => x ++ sep ++ joinSep sep xs

/-- Rust `str::ends_with` applied to the equals sign. -/
def endsWithEq (s : Str) : Bool := s.data.getLast? == some '='

/-- First component of Rust `str::split_at(len - 1)` (drop the final
character). -/
def strDropLast (s : Str) : Str := ⟨s.data.dropLast⟩

/-- Model of Rust `"...".parse::<usize>()`: optional `+`, digits, bounded
by the 64-bit unsigned maximum; a leading `-` fails. -/
def parseUsize (s : Str) : Option Nat :=
  let ds := match s.data with
    | '+' :: rest => rest
    | cs => cs
  if ds.isEmpty ∨ ¬ ds.all Char.isDigit then none
  else
    let v := digitsVal ds
    if v ≤ 2 ^ 64 - 1 then some v else none

/-! ## Predicate pushdown: `best_index` (both `src/lib.rs` and
`src/vector_impl.rs` carry the same encoding) -/

/-- Constraint operators surfaced by the host planner (the six the
translator understands, plus a stand-in for everything else). -/
inductive ConstraintOperator where
  | EQ
  | GT
  | LT
  | GE
  | LE
  | NE
  | other
deriving DecidableEq, Repr

/-- One planner constraint descriptor as `best_index` sees it. -/
structure IndexConstraint where
  column_idx : Z
  op : Option ConstraintOperator
  usable : Bool
deriving DecidableEq, Repr

/-- Operator rendering of the `match constraint.op()` in `best_index`;
`none` for operators that hit the catch-all `continue`. -/
def constraintOpStr : Option ConstraintOperator → Option Str
  | some .EQ => some "="
  | some .GT => some ">"
  | some .LT => some "<"
  | some .GE => some ">="
  | some .LE => some "<="
  | some .NE => some "!="
  | _ => none

/-- The used (column, operator) pairs selected by `best_index`, in
encounter order; the i-th pair is assigned the 1-based argv slot i+1, so
at execution time `args[i]` is the runtime value bound to it. -/
def best_index_used (constraints : List IndexConstraint) : List (Z × Str) :=
  constraints.foldl
    (fun acc c =>
      if c.usable then
        match constraintOpStr c.op with
        | some op => acc ++ [(c.column_idx, op)]
        | none => acc
      else acc)
    []

/-- The serialized index token of `best_index`: the column index rendered
in decimal glued to the operator string for each used pair, the pairs
joined with commas. -/
def best_index_idx_str (constraints : List IndexConstraint) : Str :=
  joinSep "," ((best_index_used constraints).map (fun p => Int.repr p.1 ++ p.2))

/-- The `idxnum` set by `best_index`: the number of used constraints. -/
def best_index_idx_num (constraints : List IndexConstraint) : Nat :=
  (best_index_used constraints).length

/-! ## `src/lib.rs`: the dataframe-backed table and cursor -/

/-- The embedded `UrlTable` of `lib.rs` (base pointer and sqlite handles
dropped). -/
structure UrlTable where
  df : DataFrame
  headers : List Str
  columns_types : List Str
deriving DecidableEq, Repr

/-- Table state produced by the tail of `UrlTable::init` from a built
frame: headers are the frame's column names and the declared types are
`df_columns_types`. -/
def UrlTable.ofDf (df : DataFrame) : UrlTable :=
  { df := df
    headers := df.columns.map (·.name)
    columns_types := df_columns_types df }

/-- Literal kinds produced by the `lit` calls in `UrlCursor::filter`. -/
inductive PlLit where
  | B (b : Bool)
  | I (i : Z)
  | F (f : F64)
  | S (s : Str)
deriving DecidableEq, Repr

/-- The six comparison expressions built by `UrlCursor::filter`. -/
inductive CmpOp where
  | eq
  | gt
  | lt
  | ge
  | le
  | neq
deriving DecidableEq, Repr

/-- One decoded filter expression: column name, comparison, literal. -/
structure DfPred where
  colName : Str
  op : CmpOp
  lit : PlLit
deriving DecidableEq, Repr

/-- Generic comparison dispatch given equality and strict order. -/
def opEval (op : CmpOp) (eqF ltF : α → α → Bool) (a b : α) : Bool :=
  match op with
  | .eq => eqF a b
  | .gt => ltF b a
  | .lt => ltF a b
  | .ge => ltF b a || eqF a b
  | .le => ltF a b || eqF a b
  | .neq => !eqF a b

/-- Boundary model of polars comparison between a cell and a literal: a
null cell compares to null (the row is dropped); matching kinds compare
by value; mismatched kinds (reachable only through the catch-all text
literal against a non-primitive column such as a date) fail the collect
with a compute error. -/
def evalCmp (op : CmpOp) (cell : PlValue) (l : PlLit) : Except Str Bool :=
  match cell, l with
  | .Null, _ => .ok false
  | .Boolean a, .B b => .ok (opEval op (· == ·) (fun x y => !x && y) a b)
  | .Int a, .I b => .ok (opEval op (· == ·) (fun x y => decide (x < y)) a b)
  | .Float a, .F b => .ok (opEval op F64.eqv F64.ltv a b)
  | .Str a, .S b => .ok (opEval op (· == ·) strLt a b)
  | _, _ => .error "cannot compare cell and literal of mismatched types"

/-- Keep the list entries whose mask bit is true. -/
def maskFilter : List PlValue → List Bool → List PlValue
  | v :: vs, b :: bs => if b then v :: maskFilter vs bs else maskFilter vs bs
  | _, _ => []

/-- Apply one filter expression to a frame: evaluate the mask over the
named column, failing on the first compute error, then keep the selected
rows of every column. -/
def applyPred (df : DataFrame) (p : DfPred) : Except Str DataFrame :=
  match df.columns.find? (fun c => c.name == p.colName) with
  | none => .error "ColumnNotFound"
  | some col =>
    (col.values.mapM (fun v => evalCmp p.op v p.lit)).map fun mask =>
      ⟨df.columns.map (fun c => { c with values := maskFilter c.values mask })⟩

/-- Boundary model of the lazy collect over the chain of filter
expressions built by `UrlCursor::filter`. -/
def lazyCollect (df : DataFrame) : List DfPred → Except Str DataFrame
  | [] => .ok df
  | p :: ps =>
    match applyPred df p with
    | .error e => .error e
    | .ok df2 => lazyCollect df2 ps

/-- Token decoding loop of `UrlCursor::filter` in `lib.rs`: enumerate the
comma-separated parts, trim each, strip a trailing equals sign (any other
operator character stays glued to the digits), parse the column index
(silently skipping the part on failure), choose the literal from the
column's dtype and the argv value at the part's position, and keep the
parts whose operator string matches one of the six comparisons. -/
def decodeDfPreds (vtab : UrlTable) (idx_str : Str) (args : List SqliteValue) : List DfPred :=
  (splitComma idx_str).enum.foldl
    (fun acc ipart =>
      let trimmed := rustTrim ipart.2
      if trimmed.data.isEmpty then acc
      else
        let colOp := if endsWithEq trimmed then (strDropLast trimmed, "=") else (trimmed, "")
        if colOp.1.data.isEmpty then acc
        else
          match parseUsize colOp.1 with
          | none => acc
          | some col_idx =>
            let col_name := vtab.headers.getD col_idx ""
            let col_type := vtab.df.dtypes.getD col_idx .Other
            let arg := args.getD ipart.1 .null
            let filter_value : PlLit :=
              match col_type with
              | .Boolean => .B (arg.value_int64 != 0)
              | .UInt8 => .I arg.value_int64
              | .UInt16 => .I arg.value_int64
              | .UInt32 => .I arg.value_int64
              | .UInt64 => .I arg.value_int64
              | .Int8 => .I arg.value_int64
              | .Int16 => .I arg.value_int64
              | .Int32 => .I arg.value_int64
              | .Int64 => .I arg.value_int64
              | .Float32 => .F arg.value_double
              | .Float64 => .F arg.value_double
              | .String => .S arg.value_text
              | _ => .S arg.value_text
            match colOp.2 with
            | "=" => acc ++ [⟨col_name, .eq, filter_value⟩]
            | ">" => acc ++ [⟨col_name, .gt, filter_value⟩]
            | "<" => acc ++ [⟨col_name, .lt, filter_value⟩]
            | ">=" => acc ++ [⟨col_name, .ge, filter_value⟩]
            | "<=" => acc ++ [⟨col_name, .le, filter_value⟩]
            | "!" => acc ++ [⟨col_name, .neq, filter_value⟩]
            | _ => acc)
    []

/-- The dataframe-backed cursor of `lib.rs`. -/
structure UrlCursor where
  row_idx : Nat
  filtered_df : DataFrame
deriving DecidableEq, Repr

/-- Source function `UrlTable::open`: a fresh cursor over a clone of the
base frame, positioned at row zero. -/
def UrlTable.open (t : UrlTable) : UrlCursor :=
  { row_idx := 0, filtered_df := t.df }

/-- Source function `UrlCursor::filter` in `lib.rs`, as a state
transformer: decode the token, build the lazy filter chain over a clone
of the base frame, and collect. The two `self` assignments sit after the
fallible collect, so on error the incoming cursor state is returned
untouched together with the error message; on success the new view is
installed and the position zeroed. -/
def UrlCursor.filter (vtab : UrlTable) (c : UrlCursor) (idx_str : Option Str)
    (args : List SqliteValue) : UrlCursor × Option Str :=
  let preds := match idx_str with
    | some s => decodeDfPreds vtab s args
    | none => []
  match lazyCollect vtab.df preds with
  | .error e => (c, some ("Polars collect error: " ++ e))
  | .ok df2 => ({ row_idx := 0, filtered_df := df2 }, none)

/-- Source function `UrlCursor::next`. -/
def UrlCursor.next (c : UrlCursor) : UrlCursor :=
  { c with row_idx := c.row_idx + 1 }

/-- Source function `UrlCursor::eof`. -/
def UrlCursor.eof (c : UrlCursor) : Bool :=
  c.row_idx ≥ c.filtered_df.height

/-- Source function `UrlCursor::rowid`. -/
def UrlCursor.rowid (c : UrlCursor) : Z := c.row_idx

/-- Fuelled loop body for the host-driven iteration of the dataframe
cursor: read `rowid`, advance with `next`, stop at `eof`. The fuel is
only a structural-recursion bound; `eof` is reached before the fuel runs
out whenever the fuel is at least `height - row_idx`. -/
def UrlCursor.iterTraceAux : Nat → UrlCursor → List Z
  | 0, _ => []
  | fuel + 1, c => if c.eof then [] else c.rowid :: iterTraceAux fuel c.next

/-- Rowids observed by the host: drive the cursor with `next` until `eof`,
reading `rowid` at every position. -/
def UrlCursor.iterTrace (c : UrlCursor) : List Z :=
  c.iterTraceAux (c.filtered_df.height - c.row_idx)

/-! ## `src/vector_impl.rs`: the string-table variant -/

/-- The embedded `UrlTable` of `vector_impl.rs`: headers plus rows of
strings. -/
structure VecUrlTable where
  headers : List Str
  rows : List (List Str)
deriving DecidableEq, Repr

/-- The string-backed cursor of `vector_impl.rs`. -/
structure VecUrlCursor where
  row_idx : Nat
  filtered_rows : List (List Str)
deriving DecidableEq, Repr

/-- Source function `UrlTable::open` of `vector_impl.rs`. -/
def VecUrlTable.open (t : VecUrlTable) : VecUrlCursor :=
  { row_idx := 0, filtered_rows := t.rows }

/-- Row predicate of `UrlCursor::filter` in `vector_impl.rs`: trim the
cell; if both the cell and the filter value parse as `f64` compare
numerically, otherwise compare the raw strings lexicographically. The
operator string is the decoded one (here only `=` or the empty string can
arrive; the source also matches the other five, and anything else keeps
no row). -/
def vecRowPasses (row : List Str) (col_idx : Nat) (op : Str) (filter_value : Str) : Bool :=
  let cell_value := rustTrim (row.getD col_idx "")
  match parseF64 cell_value, parseF64 filter_value with
  | some c, some f =>
    match op with
    | "=" => F64.eqv c f
    | ">" => F64.ltv f c
    | "<" => F64.ltv c f
    | ">=" => F64.lev f c
    | "<=" => F64.lev c f
    | "!" => !(F64.eqv c f)
    | _ => false
  | _, _ =>
    match op with
    | "=" => cell_value == filter_value
    | ">" => strLt filter_value cell_value
    | "<" => strLt cell_value filter_value
    | ">=" => strLt filter_value cell_value || cell_value == filter_value
    | "<=" => strLt cell_value filter_value || cell_value == filter_value
    | "!" => cell_value != filter_value
    | _ => false

/-- Token decoding of `UrlCursor::filter` in `vector_impl.rs`: split on
commas (no trimming here), strip a trailing equals sign, and keep the
parts whose column prefix parses as `usize`. Parts that fail the parse
are dropped entirely, which also shifts later pairs onto earlier argv
values. -/
def decodeVecColOps (idx_str : Str) : List (Nat × Str) :=
  (splitComma idx_str).filterMap fun part =>
    let colOp := if endsWithEq part then (strDropLast part, "=") else (part, "")
    (parseUsize colOp.1).map fun col => (col, colOp.2)

/-- Source function `UrlCursor::filter` of `vector_impl.rs`: start from a
clone of the base rows; when arguments and a token are present, apply
each decoded (column, operator) pair with the argv value at its position
in the decoded list; always reset the position to zero. This filter has
no failure path. -/
def VecUrlCursor.filter (vtab : VecUrlTable) (_c : VecUrlCursor) (idx_str : Option Str)
    (args : List SqliteValue) : VecUrlCursor :=
  let filtered :=
    if ¬ args.isEmpty ∧ idx_str.isSome then
      (decodeVecColOps (idx_str.getD "")).enum.foldl
        (fun rows ico =>
          let filter_value := (args.getD ico.1 .null).value_text
          rows.filter (fun row => vecRowPasses row ico.2.1 ico.2.2 filter_value))
        vtab.rows
    else vtab.rows
  { row_idx := 0, filtered_rows := filtered }

/-- Source function `UrlCursor::next` of `vector_impl.rs`. -/
def VecUrlCursor.next (c : VecUrlCursor) : VecUrlCursor :=
  { c with row_idx := c.row_idx + 1 }

/-- Source function `UrlCursor::eof` of `vector_impl.rs`. -/
def VecUrlCursor.eof (c : VecUrlCursor) : Bool :=
  c.row_idx ≥ c.filtered_rows.length

/-- Source function `UrlCursor::rowid` of `vector_impl.rs`. -/
def VecUrlCursor.rowid (c : VecUrlCursor) : Z := c.row_idx

/-- Fuelled loop body for the host-driven iteration of the string-backed
cursor. -/
def VecUrlCursor.iterTraceAux : Nat → VecUrlCursor → List Z
  | 0, _ => []
  | fuel + 1, c => if c.eof then [] else c.rowid :: iterTraceAux fuel c.next

/-- Rowids observed by the host for the string-backed cursor. -/
def VecUrlCursor.iterTrace (c : VecUrlCursor) : List Z :=
  c.iterTraceAux (c.filtered_rows.length - c.row_idx)

/-! ## Spec-side statement of the pushdown round trip -/

/-- Comparison the specification describes for one constraint, written
from the claim text: numeric comparison when both the (trimmed) cell and
the runtime value parse as doubles, else lexicographic text comparison,
for the six spec operators spelled as in the claim. -/
def spec_cmp (op : Str) (cell filter_value : Str) : Bool :=
  let cell_value := rustTrim cell
  match parseF64 cell_value, parseF64 filter_value with
  | some c, some f =>
    match op with
    | "=" => F64.eqv c f
    | ">" => F64.ltv f c
    | "<" => F64.ltv c f
    | ">=" => F64.lev f c
    | "<=" => F64.lev c f
    | "!=" => !(F64.eqv c f)
    | _ => false
  | _, _ =>
    match op with
    | "=" => cell_value == filter_value
    | ">" => strLt filter_value cell_value
    | "<" => strLt cell_value filter_value
    | ">=" => strLt filter_value cell_value || cell_value == filter_value
    | "<=" => strLt cell_value filter_value || cell_value == filter_value
    | "!=" => cell_value != filter_value
    | _ => false

/-- Direct application of a constraint set, written from the claim text:
keep exactly the rows of the unfiltered table satisfying the conjunction
of the predicates, the i-th constraint reading the i-th runtime value. -/
def spec_apply_constraints (constraints : List (Nat × Str)) (argvals : List Str)
    (rows : List (List Str)) : List (List Str) :=
  rows.filter fun row =>
    constraints.enum.all fun ic =>
      spec_cmp ic.2.2 (row.getD ic.2.1 "") (argvals.getD ic.1 "")

/-! ## Helper lemmas on the promotion lattice -/

/-- Promotion never lowers the accumulator's height. -/
theorem promote_rank_le (a b : InferredType) : a.rank ≤ (InferredType.promote a b).rank := by
  cases a <;> cases b <;> decide

/-- The source's `promote` is exactly the least upper bound in the total
promotion order. -/
theorem promote_eq_spec_lub (a b : InferredType) : InferredType.promote a b = spec_lub a b := by
  cases a <;> cases b <;> decide

/-- A `String` accumulator absorbs every later classification. -/
theorem promote_string_left (b : InferredType) :
    InferredType.promote .String b = .String := by
  cases b <;> rfl

/-! ## Claims about the inference engine -/

/-- C3 counterexample: a Boolean accumulator is promoted to Integer by an
integer sample (`promote`'s `(_, Int)` arm fires before `(Bool, _)`), and
the chain Null → Boolean → Integer is realizable, contradicting the
claim that a Boolean accumulator is never changed to Integer or Float and
that Null → Boolean → Text is the only chain through Boolean. -/
theorem c3_counterexample :
    InferredType.update .Bool "42" = .Int ∧
    InferredType.update (InferredType.update .Null "true") "42" = .Int ∧
    InferredType.update .Bool "1.5" = .Float := by
  decide

/-- C3 (amended): promotion is monotonic in the total order
Null ⊏ Boolean ⊏ Integer ⊏ Float ⊏ Text and Text is absorbing, but the
realizable chains are all ascending chains of that order: every upward
single step is realized by some sample, including Boolean → Integer and
Boolean → Float. -/
theorem c3_promotion_monotone_total_order :
    (∀ (t : InferredType) (s : Str), t.rank ≤ (t.update s).rank) ∧
    (∀ s : Str, InferredType.String.update s = .String) ∧
    InferredType.update .Null "true" = .Bool ∧
    InferredType.update .Null "1" = .Int ∧
    InferredType.update .Null "1.5" = .Float ∧
    InferredType.update .Null "x" = .String ∧
    InferredType.update .Bool "1" = .Int ∧
    InferredType.update .Bool "1.5" = .Float ∧
    InferredType.update .Bool "x" = .String ∧
    InferredType.update .Int "1.5" = .Float ∧
    InferredType.update .Int "x" = .String ∧
    InferredType.update .Float "x" = .String := by
  refine ⟨?_, ?_, by decide, by decide, by decide, by decide, by decide, by decide,
    by decide, by decide, by decide, by decide⟩
  · intro t s
    unfold InferredType.update
    by_cases h : (rustTrim s).data.isEmpty
    · simp [h]
    · simp only [h, Bool.false_eq_true, if_false]
      exact promote_rank_le t _
  · intro s
    unfold InferredType.update
    by_cases h : (rustTrim s).data.isEmpty
    · simp [h]
    · simp only [h, Bool.false_eq_true, if_false]
      exact promote_string_left _

/-- C8: on a sample whose trimmed form is non-empty, `update` replaces the
accumulator by the least upper bound of its current value and the
sample's classification (case-insensitive Boolean, else 64-bit signed
integer, else 64-bit float, else Text) under the order
Text ⊐ Float ⊐ Integer ⊐ Boolean ⊐ Null; a numeral just past the i64
range is classified Float, not Integer. -/
theorem c8_update_is_lub_of_classification :
    (∀ (t : InferredType) (s : Str), (rustTrim s).data.isEmpty = false →
      t.update s = spec_lub t (spec_classify (rustTrim s))) ∧
    spec_classify "9223372036854775808" = .Float ∧
    spec_classify "9223372036854775807" = .Int := by
  refine ⟨?_, by decide, by decide⟩
  intro t s h
  unfold InferredType.update spec_classify
  simp only [h, Bool.false_eq_true, if_false]
  exact promote_eq_spec_lub t _

/-- C8 witness: the theorem applied at the accumulator `Int` and the
sample `"3.5"`. -/
theorem c8_witness :
    InferredType.update .Int "3.5" = spec_lub .Int (spec_classify (rustTrim "3.5")) :=
  c8_update_is_lub_of_classification.1 .Int "3.5" (by decide)

/-! ## Claims about the CSV reader -/

/-- C4: row-time conversion tries Integer, then Float, then Boolean
(case-sensitive `bool` parse), then Text, with the empty string becoming
Null; consequently `"TRUE"` is Text at row time although schema-time
classification (case-insensitive) calls the same sample Boolean. -/
theorem c4_row_time_parse_order :
    (parse_str_value "" = { dtype := .Null, value := .Null }) ∧
    (∀ s : Str, s.isEmpty = false → (parseI64 s).isSome = true →
      ∃ v, parse_str_value s = { dtype := .Int, value := .Int v }) ∧
    (∀ s : Str, s.isEmpty = false → parseI64 s = none → (parseF64 s).isSome = true →
      ∃ f, parse_str_value s = { dtype := .Real, value := .Float f }) ∧
    (∀ s : Str, s.isEmpty = false → parseI64 s = none → parseF64 s = none →
      (parseRustBool s).isSome = true →
      ∃ b, parse_str_value s = { dtype := .Numeric, value := .Boolean b }) ∧
    (∀ s : Str, s.isEmpty = false → parseI64 s = none → parseF64 s = none →
      parseRustBool s = none →
      parse_str_value s = { dtype := .Text, value := .Text s }) ∧
    (parse_str_value "TRUE" = { dtype := .Text, value := .Text "TRUE" }) ∧
    (spec_classify "TRUE" = .Bool) ∧
    (InferredType.update .Null "TRUE" = .Bool) ∧
    (parse_str_value "true" = { dtype := .Numeric, value := .Boolean true }) := by
  refine ⟨by decide, ?_, ?_, ?_, ?_, by decide, by decide, by decide, by decide⟩
  · intro s h hi
    cases hv : parseI64 s with
    | none => rw [hv] at hi; simp at hi
    | some v => exact ⟨v, by simp [parse_str_value, h, hv]⟩
  · intro s h hi hf
    cases hv : parseF64 s with
    | none => rw [hv] at hf; simp at hf
    | some f => exact ⟨f, by simp [parse_str_value, h, hi, hv]⟩
  · intro s h hi hf hb
    cases hv : parseRustBool s with
    | none => rw [hv] at hb; simp at hb
    | some b => exact ⟨b, by simp [parse_str_value, h, hi, hf, hv]⟩
  · intro s h hi hf hb
    simp [parse_str_value, h, hi, hf, hb]

/-- C4 witness: the Text fallback clause applied at `"TRUE"`, whose
integer, float and case-sensitive boolean parses all fail. -/
theorem c4_witness :
    parse_str_value "TRUE" = { dtype := DataType.Text, value := ValueLiteral.Text "TRUE" } :=
  c4_row_time_parse_order.2.2.2.2.1 "TRUE" (by decide) (by decide) (by decide) (by decide)

/-- Counters of the schema-discovery loop: starting at enumeration index
`i`, the loop visits `min (max (n - i) 1) rs.length` records (the budget
check runs after each record, so a non-positive remaining budget still
admits one record), adding one row and the record's field count per
visit. -/
theorem inferLoop_counts (rs : List (List Str)) :
    ∀ (acc : InferAcc) (i n : Nat),
      (inferLoop acc i n rs).total_rows = acc.total_rows + min (max (n - i) 1) rs.length ∧
      (inferLoop acc i n rs).bytes_read =
        acc.bytes_read + ((rs.take (min (max (n - i) 1) rs.length)).map List.length).sum := by
  induction rs with
  | nil => intro acc i n; simp [inferLoop]
  | cons r rs ih =>
    intro acc i n
    by_cases h : i + 1 ≥ n
    · have hm : min (max (n - i) 1) (r :: rs).length = 1 := by
        simp only [List.length_cons]; omega
      rw [hm]
      simp [inferLoop, if_pos h]
    · have hk : min (max (n - i) 1) (r :: rs).length
          = min (max (n - (i + 1)) 1) rs.length + 1 := by
        simp only [List.length_cons]; omega
      rw [hk]
      have h2 := ih { types := (updateCols acc.types acc.nulls r).1
                      nulls := (updateCols acc.types acc.nulls r).2
                      total_rows := acc.total_rows + 1
                      bytes_read := acc.bytes_read + r.length } (i + 1) n
      simp only [inferLoop, if_neg h]
      rw [h2.1, h2.2]
      simp only [InferAcc.total_rows, InferAcc.bytes_read]
      constructor
      · omega
      · simp [List.take_succ_cons]
        omega

/-- C5 counterexample: with a sample budget of 0 and one data record of
two fields of length two, construction still reads the record
(`total_rows = 1`, not `min 0 1 = 0`) and adds the record's field count 2
to the byte metric — which equals neither the claim's value for zero
sampled rows (0) nor the sum of the sampled row's field lengths (4). -/
theorem c5_counterexample :
    (CsvReader.try_new ⟨["a", "b"], [["ab", "cd"]]⟩ 0).total_rows = 1 ∧
    min 0 1 = 0 ∧
    (CsvReader.try_new ⟨["a", "b"], [["ab", "cd"]]⟩ 0).bytes_read = 2 ∧
    specSampledFieldLenSum [["ab", "cd"]] (min 0 1) = 0 ∧
    specSampledFieldLenSum [["ab", "cd"]] 1 = 4 := by
  decide

/-- C5 (amended): construction samples `min (max n 1) m` records (the
budget check follows the record, so a zero budget still reads one), its
row counter is exactly that count, and its byte-accounting metric is the
total number of fields of the sampled records — a schema-discovery-only
tally, not a field-length sum and not an exact byte count of the file. -/
theorem c5_sampling_counts :
    ∀ (header : List Str) (records : List (List Str)) (n : Nat),
      (CsvReader.try_new ⟨header, records⟩ n).total_rows = min (max n 1) records.length ∧
      (CsvReader.try_new ⟨header, records⟩ n).bytes_read =
        ((records.take (min (max n 1) records.length)).map List.length).sum ∧
      (CsvReader.try_new ⟨header, records⟩ n).data = ⟨header, records⟩ := by
  intro header records n
  have h := inferLoop_counts records
    { types := List.replicate header.length .Null
      nulls := List.replicate header.length false
      total_rows := 0
      bytes_read := 0 } 0 n
  simp only [Nat.sub_zero] at h
  exact ⟨by simp [CsvReader.try_new, h.1], by simp [CsvReader.try_new, h.2], rfl⟩

/-! ## Claims about the Avro reader -/

/-- Every error `convert_avro_value` can produce carries the complex-type
message (proved by induction on the union depth, the only recursion). -/
theorem convert_error_msg :
    ∀ (v : AvroValue) (e : ReaderError), convert_avro_value v = .error e →
      e = .InvalidFormat "Complex types not supported" := by
  have H : ∀ (n : Nat) (v : AvroValue), v.unionDepth ≤ n → ∀ e,
      convert_avro_value v = .error e →
      e = .InvalidFormat "Complex types not supported" := by
    intro n
    induction n with
    | zero =>
      intro v hd e he
      cases v <;> simp_all [convert_avro_value, AvroValue.unionDepth]
    | succ n ih =>
      intro v hd e he
      cases v with
      | Union inner =>
        simp only [convert_avro_value] at he
        refine ih inner ?_ e he
        simp only [AvroValue.unionDepth] at hd
        omega
      | Null => simp_all [convert_avro_value]
      | Boolean b => simp_all [convert_avro_value]
      | Int i => simp_all [convert_avro_value]
      | Long i => simp_all [convert_avro_value]
      | TimeMillis i => simp_all [convert_avro_value]
      | TimeMicros i => simp_all [convert_avro_value]
      | Date i => simp_all [convert_avro_value]
      | TimestampMillis i => simp_all [convert_avro_value]
      | TimestampMicros i => simp_all [convert_avro_value]
      | Duration bs => simp_all [convert_avro_value]
      | Float f => simp_all [convert_avro_value]
      | Double f => simp_all [convert_avro_value]
      | Decimal bs => simp_all [convert_avro_value]
      | Bytes bs => simp_all [convert_avro_value]
      | Fixed k bs => simp_all [convert_avro_value]
      | String str => simp_all [convert_avro_value]
      | Enum k str => simp_all [convert_avro_value]
      | Uuid str => simp_all [convert_avro_value]
      | Array items => simp_all [convert_avro_value]
      | Map entries => simp_all [convert_avro_value]
      | Record fields => simp_all [convert_avro_value]
  intro v e
  exact H v.unionDepth v (Nat.le_refl _) e

/-- An aggregate value is rejected outright. -/
theorem convert_complex_error (v : AvroValue) (h : v.isComplex = true) :
    convert_avro_value v = .error (.InvalidFormat "Complex types not supported") := by
  cases v <;> simp_all [AvroValue.isComplex, convert_avro_value]

/-- A row whose fields contain an aggregate value fails with the
complex-type error (the earlier fields can only fail with the same
error). -/
theorem collectRow_complex_error :
    ∀ (pre : List (Str × AvroValue)) (nm : Str) (v : AvroValue)
      (post : List (Str × AvroValue)), v.isComplex = true →
      collectRow (pre ++ (nm, v) :: post)
        = .error (.InvalidFormat "Complex types not supported") := by
  intro pre
  induction pre with
  | nil =>
    intro nm v post hc
    simp [collectRow, convert_complex_error v hc]
  | cons q pre ih =>
    intro nm v post hc
    simp only [List.cons_append, collectRow]
    cases hq : convert_avro_value q.2 with
    | error e => rw [convert_error_msg q.2 e hq]
    | ok l =>
      simp only [List.append_eq]
      rw [ih nm v post hc]

/-- C6: a record holding an array, map or nested record field converts to
the single-row "complex type" `InvalidFormat` error instead of a
stringified Text value; a union unwraps recursively to its inner value's
conversion; and each yielded row depends only on its own pre-decoded
record, so rows before the failing one are unaffected. -/
theorem c6_complex_field_fails_row :
    (∀ (pre : List (Str × AvroValue)) (nm : Str) (items : List AvroValue)
        (post : List (Str × AvroValue)),
      avroRowStep (.Record (pre ++ (nm, .Array items) :: post))
        = .error (.InvalidFormat "Complex types not supported")) ∧
    (∀ (pre : List (Str × AvroValue)) (nm : Str) (entries : List (Str × AvroValue))
        (post : List (Str × AvroValue)),
      avroRowStep (.Record (pre ++ (nm, .Map entries) :: post))
        = .error (.InvalidFormat "Complex types not supported")) ∧
    (∀ (pre : List (Str × AvroValue)) (nm : Str) (fields : List (Str × AvroValue))
        (post : List (Str × AvroValue)),
      avroRowStep (.Record (pre ++ (nm, .Record fields) :: post))
        = .error (.InvalidFormat "Complex types not supported")) ∧
    (∀ inner : AvroValue, convert_avro_value (.Union inner) = convert_avro_value inner) ∧
    (∀ (sch : Schema) (br : Nat) (tr : Nat) (recs1 : List AvroValue) (v : AvroValue)
        (recs2 : List AvroValue),
      (AvroReader.mk sch br tr (recs1 ++ v :: recs2)).iter_rows
        = recs1.map avroRowStep ++ avroRowStep v :: recs2.map avroRowStep) := by
  refine ⟨?_, ?_, ?_, ?_, ?_⟩
  · intro pre nm items post
    exact collectRow_complex_error pre nm (.Array items) post rfl
  · intro pre nm entries post
    exact collectRow_complex_error pre nm (.Map entries) post rfl
  · intro pre nm fields post
    exact collectRow_complex_error pre nm (.Record fields) post rfl
  · intro inner
    rfl
  · intro sch br tr recs1 v recs2
    simp [AvroReader.iter_rows]

/-- Mapping over a successful `Except` value. -/
theorem exceptMap_ok {e a b : Type} (f : a → b) (v : a) :
    (Except.ok v : Except e a).map f = .ok (f v) := rfl

/-- Mapping over a failed `Except` value. -/
theorem exceptMap_error {e a b : Type} (f : a → b) (err : e) :
    (Except.error err : Except e a).map f = .error err := rfl

/-- A decode stream without errors collects to its values. -/
theorem collectAvro_ok (rs : List AvroValue) :
    collectAvro (rs.map Except.ok) = .ok rs := by
  induction rs with
  | nil => rfl
  | cons r rs ih => simp [collectAvro, ih, exceptMap_ok]

/-- The first record-level decode error aborts the collection with that
error. -/
theorem collectAvro_first_error (pre : List AvroValue) (e : Str)
    (post : List (Except Str AvroValue)) :
    collectAvro (pre.map Except.ok ++ .error e :: post) = .error e := by
  induction pre with
  | nil => rfl
  | cons r pre ih => simp [collectAvro, ih, exceptMap_error]

/-- C7: the schema of a successfully constructed binary reader is a
function of the first decoded record alone — one field per entry, its
DataType fixed by the value variant, in record order, with later records
never consulted — and construction fails with `InvalidFormat` when the
payload cannot be framed, when any record fails to decode, and when zero
records are decoded; the concrete first record `(id : int, name : string)`
yields the schema `(id : INTEGER, name : TEXT)` even when a later record
carries a null name. -/
theorem c7_schema_from_first_record :
    (∀ (fields : List (Str × AvroValue)) (rest : List AvroValue) (n : Nat),
      Except.map AvroReader.schema
          (AvroReader.try_new (.ok ((AvroValue.Record fields :: rest).map Except.ok)) n)
        = .ok ⟨fields.map fun p =>
            { name := p.1, dtype := dtype_from_avro p.2, nullable := p.2.isNullVariant }⟩) ∧
    (Except.map AvroReader.schema (AvroReader.try_new (.ok [
        .ok (.Record [("id", .Int 1), ("name", .String "x")]),
        .ok (.Record [("id", .Int 2), ("name", .Null)])]) 0)
      = .ok ⟨[⟨"id", .Int, false⟩, ⟨"name", .Text, false⟩]⟩) ∧
    (∀ (e : Str) (n : Nat),
      readerErr (AvroReader.try_new (.error e) n) = some (.InvalidFormat e)) ∧
    (∀ (pre : List AvroValue) (e : Str) (post : List (Except Str AvroValue)) (n : Nat),
      readerErr (AvroReader.try_new (.ok (pre.map Except.ok ++ .error e :: post)) n)
        = some (.InvalidFormat e)) ∧
    (∀ n : Nat,
      readerErr (AvroReader.try_new (.ok []) n)
        = some (.InvalidFormat "Empty or invalid AVRO file")) := by
  refine ⟨?_, by decide, ?_, ?_, ?_⟩
  · intro fields rest n
    have hc := collectAvro_ok (AvroValue.Record fields :: rest)
    simp only [List.map_cons] at hc
    simp [AvroReader.try_new, hc, exceptMap_ok]
  · intro e n
    rfl
  · intro pre e post n
    simp [AvroReader.try_new, collectAvro_first_error pre e post, readerErr]
  · intro n
    rfl

/-! ## Claims about the cursors and the pushdown translator -/

/-- The fuelled iteration of the string-backed cursor lists the positions
from `row_idx` for exactly the remaining rows. -/
theorem vec_iterTraceAux_range :
    ∀ (fuel : Nat) (c : VecUrlCursor), c.filtered_rows.length - c.row_idx = fuel →
      VecUrlCursor.iterTraceAux fuel c = (List.range' c.row_idx fuel).map Int.ofNat := by
  intro fuel
  induction fuel with
  | zero => intro c h; simp [VecUrlCursor.iterTraceAux]
  | succ n ih =>
    intro c h
    have he : c.eof = false := by
      simp only [VecUrlCursor.eof, ge_iff_le, decide_eq_false_iff_not, not_le]
      omega
    have hn : c.next.filtered_rows.length - c.next.row_idx = n := by
      simp only [VecUrlCursor.next]
      omega
    simp only [VecUrlCursor.iterTraceAux, he, Bool.false_eq_true, if_false]
    rw [ih c.next hn]
    simp [VecUrlCursor.rowid, VecUrlCursor.next, List.range']

/-- The fuelled iteration of the dataframe cursor lists the positions
from `row_idx` for exactly the remaining rows. -/
theorem df_iterTraceAux_range :
    ∀ (fuel : Nat) (c : UrlCursor), c.filtered_df.height - c.row_idx = fuel →
      UrlCursor.iterTraceAux fuel c = (List.range' c.row_idx fuel).map Int.ofNat := by
  intro fuel
  induction fuel with
  | zero => intro c h; simp [UrlCursor.iterTraceAux]
  | succ n ih =>
    intro c h
    have he : c.eof = false := by
      simp only [UrlCursor.eof, ge_iff_le, decide_eq_false_iff_not, not_le]
      omega
    have hn : c.next.filtered_df.height - c.next.row_idx = n := by
      simp only [UrlCursor.next]
      omega
    simp only [UrlCursor.iterTraceAux, he, Bool.false_eq_true, if_false]
    rw [ih c.next hn]
    simp [UrlCursor.rowid, UrlCursor.next, List.range']

/-- A cursor positioned at zero is traversed as `0, 1, 2, …` up to its
view's height. -/
theorem vec_iterTrace_of_zero (c : VecUrlCursor) (h : c.row_idx = 0) :
    c.iterTrace = (List.range c.filtered_rows.length).map Int.ofNat := by
  unfold VecUrlCursor.iterTrace
  rw [vec_iterTraceAux_range _ c rfl, h, List.range_eq_range']
  simp

/-- A dataframe cursor positioned at zero is traversed as `0, 1, 2, …` up
to its view's height. -/
theorem df_iterTrace_of_zero (c : UrlCursor) (h : c.row_idx = 0) :
    c.iterTrace = (List.range c.filtered_df.height).map Int.ofNat := by
  unfold UrlCursor.iterTrace
  rw [df_iterTraceAux_range _ c rfl, h, List.range_eq_range']
  simp

/-- C9: after every filter application (the string-backed filter always
succeeds; the dataframe filter on success), the cursor's position is
zero, and driving it with `next` until `eof` reads `rowid` values
`0, 1, 2, …` with no gaps up to the filtered view's height, independent
of the rows' positions in the base table. -/
theorem c9_rowid_rebased_after_filter :
    (∀ (vtab : VecUrlTable) (c : VecUrlCursor) (idx_str : Option Str)
        (args : List SqliteValue),
      (VecUrlCursor.filter vtab c idx_str args).row_idx = 0 ∧
      (VecUrlCursor.filter vtab c idx_str args).iterTrace
        = (List.range (VecUrlCursor.filter vtab c idx_str args).filtered_rows.length).map
            Int.ofNat) ∧
    (∀ (vtab : UrlTable) (c c2 : UrlCursor) (idx_str : Option Str) (args : List SqliteValue),
      UrlCursor.filter vtab c idx_str args = (c2, none) →
      c2.row_idx = 0 ∧
      c2.iterTrace = (List.range c2.filtered_df.height).map Int.ofNat) := by
  constructor
  · intro vtab c idx_str args
    refine ⟨rfl, ?_⟩
    exact vec_iterTrace_of_zero _ rfl
  · intro vtab c c2 idx_str args h
    unfold UrlCursor.filter at h
    simp only at h
    revert h
    cases lazyCollect vtab.df (match idx_str with
      | some s => decodeDfPreds vtab s args
      | none => []) with
    | error e => intro h; simp at h
    | ok df2 =>
      intro h
      simp only [Prod.mk.injEq] at h
      have h0 : c2.row_idx = 0 := by rw [← h.1]
      exact ⟨h0, df_iterTrace_of_zero c2 h0⟩

/-- C9 witness: a concrete successful dataframe filter (one integer
column, an equality constraint) instantiates the second clause. -/
theorem c9_witness :
    (⟨0, ⟨[⟨"a", PlDataType.Int64, [PlValue.Int 2]⟩]⟩⟩ : UrlCursor).row_idx = 0 ∧
    (⟨0, ⟨[⟨"a", PlDataType.Int64, [PlValue.Int 2]⟩]⟩⟩ : UrlCursor).iterTrace
      = (List.range
          (⟨0, ⟨[⟨"a", PlDataType.Int64, [PlValue.Int 2]⟩]⟩⟩ : UrlCursor).filtered_df.height).map
          Int.ofNat :=
  c9_rowid_rebased_after_filter.2
    (UrlTable.ofDf ⟨[⟨"a", PlDataType.Int64, [PlValue.Int 1, PlValue.Int 2]⟩]⟩)
    (UrlTable.open (UrlTable.ofDf ⟨[⟨"a", PlDataType.Int64, [PlValue.Int 1, PlValue.Int 2]⟩]⟩))
    ⟨0, ⟨[⟨"a", PlDataType.Int64, [PlValue.Int 2]⟩]⟩⟩
    (some "0=") [.integer 2] (by decide)

/-- C10: the dataframe filter is atomic on error — when the collect of
the lazily filtered frame fails, the cursor's previous view and position
are returned untouched; the new view is installed and the position zeroed
only on success. -/
theorem c10_filter_atomic_on_error :
    (∀ (vtab : UrlTable) (c : UrlCursor) (idx_str : Option Str) (args : List SqliteValue)
        (e : Str),
      (UrlCursor.filter vtab c idx_str args).2 = some e →
      (UrlCursor.filter vtab c idx_str args).1 = c) ∧
    (∀ (vtab : UrlTable) (c : UrlCursor) (idx_str : Option Str) (args : List SqliteValue),
      (UrlCursor.filter vtab c idx_str args).2 = none →
      (UrlCursor.filter vtab c idx_str args).1.row_idx = 0) := by
  constructor
  · intro vtab c idx_str args e h
    unfold UrlCursor.filter at h ⊢
    simp only at h ⊢
    revert h
    cases lazyCollect vtab.df (match idx_str with
      | some s => decodeDfPreds vtab s args
      | none => []) with
    | error e2 => intro h; rfl
    | ok df2 => intro h; simp at h
  · intro vtab c idx_str args h
    unfold UrlCursor.filter at h ⊢
    simp only at h ⊢
    revert h
    cases lazyCollect vtab.df (match idx_str with
      | some s => decodeDfPreds vtab s args
      | none => []) with
    | error e2 => intro h; simp at h
    | ok df2 => intro h; rfl

/-- C10 witness: filtering a date-typed column against a text literal
makes the collect fail, and the cursor (positioned at 7 with a one-row
leftover view) is returned unchanged. -/
theorem c10_witness :
    (UrlCursor.filter (UrlTable.ofDf ⟨[⟨"d", PlDataType.Date, [PlValue.Date 1]⟩]⟩)
        ⟨7, ⟨[⟨"q", PlDataType.Int64, [PlValue.Int 3]⟩]⟩⟩ (some "0=") [.text "x"]).1
      = ⟨7, ⟨[⟨"q", PlDataType.Int64, [PlValue.Int 3]⟩]⟩⟩ :=
  c10_filter_atomic_on_error.1
    (UrlTable.ofDf ⟨[⟨"d", PlDataType.Date, [PlValue.Date 1]⟩]⟩)
    ⟨7, ⟨[⟨"q", PlDataType.Int64, [PlValue.Int 3]⟩]⟩⟩ (some "0=") [.text "x"]
    "Polars collect error: cannot compare cell and literal of mismatched types" (by decide)

/-! ## Claims about the cache gate's reconstruction path -/

/-- Every frame built by `dataframe_from_rows` carries only string
columns. -/
theorem dataframe_from_rows_all_string (data : List (List Str)) (headers : Option (List Str))
    (df : DataFrame) (h : dataframe_from_rows data headers = .ok df) :
    ∀ c ∈ df.columns, c.dtype = .String := by
  unfold dataframe_from_rows at h
  split at h
  · simp at h
  · simp only at h
    split at h
    · simp at h
    · simp only [Except.ok.injEq] at h
      intro c hc
      rw [← h] at hc
      simp only [List.mem_map] at hc
      obtain ⟨i, _, hi⟩ := hc
      rw [← hi]

/-- C2 counterexample: a table first created from an integer column
stores the metadata type string INTEGER, but reconstruction of the same
table from the persisted rows declares TEXT. -/
theorem c2_counterexample :
    df_columns_types ⟨[⟨"a", PlDataType.Int64, [PlValue.Int 1]⟩]⟩ = ["INTEGER"] ∧
    reconstruct_table "a" [["1"]]
      = .ok (⟨[⟨"a", PlDataType.String, [PlValue.Str "1"]⟩]⟩, ["TEXT"]) ∧
    ("TEXT" : Str) ≠ "INTEGER" := by
  decide

/-- C2 (amended): the reconstruction path runs no type inference — the
declared types are independent of the stored row values — but the
declared types do not come from the stored metadata type strings either:
every reconstructed column is read back as a string series and declared
TEXT, whatever `COLUMN_TYPES` was persisted at first creation. -/
theorem c2_reconstruction_declares_text :
    ∀ (headerLine : Str) (rows : List (List Str)) (df : DataFrame) (types : List Str),
      reconstruct_table headerLine rows = .ok (df, types) →
      (∀ c ∈ df.columns, c.dtype = .String) ∧ (∀ t ∈ types, t = "TEXT") := by
  intro headerLine rows df types hre
  unfold reconstruct_table at hre
  cases hd : dataframe_from_rows rows (some (split_headers_line headerLine)) with
  | error e =>
    rw [hd] at hre
    simp [exceptMap_error] at hre
  | ok df0 =>
    rw [hd, exceptMap_ok] at hre
    simp only [Except.ok.injEq, Prod.mk.injEq] at hre
    obtain ⟨hdf, hty⟩ := hre
    have hstr : ∀ c ∈ df0.columns, c.dtype = .String :=
      dataframe_from_rows_all_string rows _ df0 hd
    subst hdf
    constructor
    · exact hstr
    · intro t ht
      rw [← hty] at ht
      unfold df_columns_types DataFrame.dtypes at ht
      simp only [List.map_map, List.mem_map] at ht
      obtain ⟨c, hc, hc2⟩ := ht
      rw [← hc2]
      simp [Function.comp, hstr c hc, df_dtype_to_sqlite_dtype, SQLiteDataTypes.as_str]

/-- C2 witness: the amended theorem applied to the concrete
reconstruction of a one-column, one-row table. -/
theorem c2_witness :
    (∀ c ∈ (⟨[⟨"a", PlDataType.String, [PlValue.Str "1"]⟩]⟩ : DataFrame).columns,
      c.dtype = PlDataType.String) ∧
    (∀ t ∈ (["TEXT"] : List Str), t = "TEXT") :=
  c2_reconstruction_declares_text "a" [["1"]]
    ⟨[⟨"a", PlDataType.String, [PlValue.Str "1"]⟩]⟩ ["TEXT"] (by decide)

/-- C1 evidence: a usable `>` constraint on column 0 is encoded as the
token part `0>`, but both filters' decoders only strip a trailing equals
sign, so `0>` fails the column-index parse and the constraint is dropped:
the decoded constraint lists are empty and both cursors return the
unfiltered row set, while direct application of the equivalent `>`
predicate keeps only the row whose column-0 value exceeds the runtime
argument. The same evaluation confirms that only the `=` operator
round-trips. -/
theorem c1_non_eq_operators_dropped :
    best_index_idx_str [⟨0, some .GT, true⟩] = "0>" ∧
    best_index_idx_num [⟨0, some .GT, true⟩] = 1 ∧
    decodeVecColOps "0>" = [] ∧
    decodeVecColOps "0>=" = [] ∧
    decodeVecColOps "0<" = [] ∧
    decodeVecColOps "0<=" = [] ∧
    decodeVecColOps "0!=" = [] ∧
    decodeVecColOps "0=" = [(0, "=")] ∧
    (VecUrlCursor.filter ⟨["a"], [["1"], ["2"]]⟩
        (VecUrlTable.open ⟨["a"], [["1"], ["2"]]⟩) (some "0>") [.text "1"]).filtered_rows
      = [["1"], ["2"]] ∧
    spec_apply_constraints [(0, ">")] ["1"] [["1"], ["2"]] = [["2"]] ∧
    decodeDfPreds (UrlTable.ofDf ⟨[⟨"a", PlDataType.Int64, [PlValue.Int 1, PlValue.Int 2]⟩]⟩)
        "0>" [.integer 1] = [] ∧
    (UrlCursor.filter (UrlTable.ofDf ⟨[⟨"a", PlDataType.Int64, [PlValue.Int 1, PlValue.Int 2]⟩]⟩)
        (UrlTable.open
          (UrlTable.ofDf ⟨[⟨"a", PlDataType.Int64, [PlValue.Int 1, PlValue.Int 2]⟩]⟩))
        (some "0>") [.integer 1]).1.filtered_df
      = ⟨[⟨"a", PlDataType.Int64, [PlValue.Int 1, PlValue.Int 2]⟩]⟩ ∧
    (VecUrlCursor.filter ⟨["a"], [["1"], ["2"]]⟩
        (VecUrlTable.open ⟨["a"], [["1"], ["2"]]⟩) (some "0=") [.text "2"]).filtered_rows
      = [["2"]] ∧
    spec_apply_constraints [(0, "=")] ["2"] [["1"], ["2"]] = [["2"]] := by
  decide

end UrlVtab
